import Mathlib

/-!
Verification of the nl2sql generate-execute-repair loop.

Shallow embedding of `src/nl2sql.py`.  The external collaborators (the
sqlite engine behind `DatabaseManager` and the OpenAI chat completion
behind `SQLGenerator._generate_with_openai`) are modelled as oracle
functions; the Python control flow (`execute_sql`, the fence-stripping of
the raw model output, and the `generate_sql` retry loop) is translated
literally.

Conventions:
* Python exceptions raised by an external call are modelled as
  `Except.error msg` where `msg` is `str(e)`.
* Row values produced by `sqlite3` are modelled by the `Value` type; which
  concrete values appear never matters to the properties below.
* The nondeterminism of the OpenAI call is resolved by indexing the oracle
  with the attempt counter `retry_count`, the only loop state (besides
  `last_error`, passed explicitly) that distinguishes the calls.
-/

set_option synthInstance.maxSize 512

namespace Nl2Sql

/-- A cell value in a sqlite result row. -/
inductive Value
  | null
  | int (n : Int)
  | text (s : String)
  deriving Repr, DecidableEq

/-- One table of the schema as produced by `DatabaseManager.get_schema`:
`{"table": name, "columns": [...], "types": [...]}`. -/
structure TableInfo where
  table : String
  columns : List String
  types : List String
  deriving Repr, DecidableEq

/-- Result type of `DatabaseManager.get_schema`: a list of table
dictionaries. -/
abbrev Schema := List TableInfo

/-- What the sqlite engine reports for a statement that executed without
raising: `description` is `cursor.description` (the column names, `none`
when the statement produces no result set) and `rows` is
`cursor.fetchall()`. -/
structure EngineOk where
  description : Option (List String)
  rows : List (List Value)
  deriving Repr, DecidableEq

/-- The sqlite engine as an oracle: for each SQL text, either the cursor
data or the exception message `str(e)`. -/
abbrev Engine := String → Except String EngineOk

/-- Model of `DatabaseManager.execute_sql` (src/nl2sql.py lines 119-128):
wraps the engine call in try/except and returns the Python triple
`(success, results, error)`. -/
def execute_sql (engine : Engine) (sql : String) :
    Bool × Option (List String × List (List Value)) × Option String :=
  match engine sql with
  | .ok r => (true, some (r.description.getD [], r.rows), none)
  | .error e => (false, none, some e)

/-! Fence stripping (src/nl2sql.py lines 205-211)

The Python code is
```
sql = response.choices[0].message.content.strip()
for p in ["\x60\x60\x60sql", "\x60\x60\x60"]:
    if sql.startswith(p):
        sql = sql[len(p):].split("\x60\x60\x60")[0].strip()
```
We implement `str.strip`, `str.startswith`, slicing and `str.split(sep)[0]`
on `List Char` by structural recursion so that concrete runs reduce.
`str.strip()` strips Python whitespace; we cover its ASCII subset, which
agrees with Python on every string below. -/

/-- ASCII whitespace as stripped by Python `str.strip()`. -/
def isPyWs (c : Char) : Bool :=
  c = ' ' || c = '\t' || c = '\n' || c = '\r' || c = '\x0b' || c = '\x0c'

/-- Python `str.strip()` on a character list. -/
def pyStripList (l : List Char) : List Char :=
  ((l.dropWhile isPyWs).reverse.dropWhile isPyWs).reverse

/-- Python `str.strip()`. -/
def pyStrip (s : String) : String := ⟨pyStripList s.data⟩

/-- The characters up to (excluding) the first occurrence of the fence
`\x60\x60\x60`; this is Python `s.split("\x60\x60\x60")[0]`. -/
def takeUntilFence : List Char → List Char
  | [] => []
  | c :: cs =>
      if ("```".data).isPrefixOf (c :: cs) then []
      else c :: takeUntilFence cs

/-- One iteration of the stripping loop for a given marker:
`if sql.startswith(p): sql = sql[len(p):].split("\x60\x60\x60")[0].strip()`. -/
def stripAfterMarker (marker : List Char) (sql : List Char) : List Char :=
  if marker.isPrefixOf sql then
    pyStripList (takeUntilFence (sql.drop marker.length))
  else sql

/-- Lines 205-211: `content.strip()` followed by the two-marker stripping
loop, in order. -/
def cleanSql (content : String) : String :=
  ⟨stripAfterMarker "```".data
    (stripAfterMarker "```sql".data (pyStripList content.data))⟩

/-! The generator call (src/nl2sql.py lines 168-211)

`_generate_with_openai(question, is_retry, last_error)` fetches the schema
(`self.db.get_schema()`), builds one of two prompts from the question, the
schema and (on retries) `last_error`, calls the chat completion, and
returns the stripped text.  The schema provider and the chat completion
are oracles; the completion oracle receives exactly the data the prompt is
built from (attempt index for nondeterminism, the fetched schema,
`is_retry`, `last_error`).  Either oracle may raise (`Except.error`). -/

/-- The schema provider: the value returned (or exception raised) by the
`i`-th call to `DatabaseManager.get_schema` within one loop run. -/
abbrev SchemaOracle := Nat → Except String Schema

/-- The chat completion: from attempt index, fetched schema, `is_retry`
flag and `last_error` (the prompt inputs) to raw text or exception. -/
abbrev Completion := Nat → Schema → Bool → Option String → Except String String

/-- Model of `SQLGenerator._generate_with_openai` for the call made at
`retry_count = i`: fetch the schema (one `get_schema` call, the `i`-th of
the run), call the completion, strip the fences.  Returns the SQL text or
the message of the exception that escapes the method. -/
def generate_with_openai (gs : SchemaOracle) (llm : Completion) (i : Nat)
    (is_retry : Bool) (last_error : Option String) : Except String String :=
  match gs i with
  | .error m => .error m
  | .ok schema =>
      match llm i schema is_retry last_error with
      | .error m => .error m
      | .ok content => .ok (cleanSql content)

/-! The repair loop (src/nl2sql.py lines 135-166) -/

/-- The dictionary returned by `generate_sql`: either
`{"success": True, "sql": .., "results": .., "attempts": retry_count+1}` or
`{"success": False, "error": last_error, "attempts": retry_count}`. -/
inductive PyResult
  | success (sql : String) (results : Option (List String × List (List Value)))
      (attempts : Nat)
  | failure (error : Option String) (attempts : Nat)
  deriving Repr, DecidableEq

/-- Projection of the `attempts` field of the returned dictionary. -/
def PyResult.attempts : PyResult → Nat
  | .success _ _ a => a
  | .failure _ a => a

deriving instance DecidableEq for Except

/-- One attempt of the loop, as observable from its printed audit trail:
the 1-based attempt index, the `last_error` in effect when the attempt
started (fed to the generator), the schema value returned by the `get_schema`
call of this attempt (`none` when that call raised), the generator
outcome (`error m` when the try-block raised before executing, `ok sql`
when SQL was produced), and the `execute_sql` triple (`none` when no
execution happened). -/
structure AttemptLog where
  idx : Nat
  priorError : Option String
  schema : Option Schema
  gen : Except String String
  exec : Option (Bool × Option (List String × List (List Value)) × Option String)
  deriving Repr, DecidableEq

/-- The body of the `while retry_count <= max_retries` loop, by recursion
on the remaining number of iterations (`fuel`): since `retry_count`
increases by exactly one on every non-returning iteration, the loop at
`retry_count = rc` performs exactly `max(0, max_retries + 1 - rc)` more
iterations unless it returns early; `generate_sql` below instantiates
`fuel` accordingly.  Returns the result dictionary together with the logs
of the attempts made, in order. -/
def genLoop (gs : SchemaOracle) (llm : Completion) (engine : Engine) :
    Nat → Nat → Option String → PyResult × List AttemptLog
  | 0, rc, le => (.failure le rc, [])
  | fuel + 1, rc, le =>
      match gs rc with
      | .error m =>
          -- get_schema raised inside _generate_with_openai: caught by the
          -- except-branch, last_error = str(e), retry_count += 1
          let rest := genLoop gs llm engine fuel (rc + 1) (some m)
          (rest.1, ⟨rc + 1, le, none, .error m, none⟩ :: rest.2)
      | .ok schema =>
          match llm rc schema (rc > 0) le with
          | .error m =>
              -- the chat completion raised: same except-branch
              let rest := genLoop gs llm engine fuel (rc + 1) (some m)
              (rest.1, ⟨rc + 1, le, some schema, .error m, none⟩ :: rest.2)
          | .ok content =>
              let sql := cleanSql content
              let r := execute_sql engine sql
              if r.1 then
                -- success: return the dict with attempts = retry_count + 1
                (.success sql r.2.1 (rc + 1),
                 [⟨rc + 1, le, some schema, .ok sql, some r⟩])
              else
                -- failure: last_error = error, retry_count += 1
                let rest := genLoop gs llm engine fuel (rc + 1) r.2.2
                (rest.1, ⟨rc + 1, le, some schema, .ok sql, some r⟩ :: rest.2)

/-- Model of `SQLGenerator.generate_sql(question, max_retries)` (lines 135-166):
`retry_count = 0`, `last_error = None`, loop while
`retry_count <= max_retries`.  `max_retries` is a Python `int`, hence
`Int` here; starting from `retry_count = 0` the loop body runs at most
`(max_retries + 1).toNat` times. -/
def generate_sql (gs : SchemaOracle) (llm : Completion) (engine : Engine)
    (max_retries : Int := 3) : PyResult × List AttemptLog :=
  genLoop gs llm engine (max_retries + 1).toNat 0 none


/-! Concrete fixtures.  The schema below is the one
`DatabaseManager._setup_database` (src/nl2sql.py lines 29-99) creates, with
the declared column types sqlite reports through `PRAGMA table_info`.  The
oracle fixtures model a healthy database, a closed connection, and simple
generator behaviours used by the witnesses and counterexamples. -/

/-- The schema of the sample database created by `_setup_database`. -/
def setupSchema : Schema :=
  [⟨"products", ["product_id", "product_name", "city", "sale_date", "quantity", "price"],
     ["INTEGER", "TEXT", "TEXT", "DATE", "INTEGER", "DECIMAL(10,2)"]⟩,
   ⟨"users", ["user_id", "user_name", "email", "registration_date"],
     ["INTEGER", "TEXT", "TEXT", "DATE"]⟩,
   ⟨"purchases", ["purchase_id", "user_id", "product_id", "purchase_date", "quantity"],
     ["INTEGER", "INTEGER", "INTEGER", "DATE", "INTEGER"]⟩]

/-- A healthy schema provider: every `get_schema` call succeeds with the
sample schema. -/
def gsLive : SchemaOracle := fun _ => .ok setupSchema

/-- A completion that always proposes the same valid-looking query. -/
def llmSelect1 : Completion := fun _ _ _ _ => .ok "SELECT 1"

/-- A completion that always proposes a query naming a missing table
(scenario B of the spec). -/
def llmNonexistent : Completion := fun _ _ _ _ => .ok "SELECT * FROM nonexistent"

/-- An engine for which every statement fails with the sqlite
missing-table diagnostic. -/
def engNoTable : Engine := fun _ => .error "no such table: nonexistent"

/-- An engine accepting one DML statement that produces no result set
(`cursor.description` is `None`, `fetchall()` is empty), as sqlite does for
INSERT statements. -/
def engDml : Engine := fun sql =>
  if sql = "INSERT INTO purchases VALUES (8, 3, 1, NULL, 1)" then .ok ⟨none, []⟩
  else .error "syntax error"

/-! Helper lemmas about the loop. -/

/-- One unfolding of the loop body, stated so that it can be applied once
without unfolding the recursive occurrence. -/
theorem genLoop_succ (gs : SchemaOracle) (llm : Completion) (engine : Engine)
    (n rc : Nat) (le : Option String) :
    genLoop gs llm engine (n + 1) rc le =
      match gs rc with
      | .error m =>
          let rest := genLoop gs llm engine n (rc + 1) (some m)
          (rest.1, ⟨rc + 1, le, none, .error m, none⟩ :: rest.2)
      | .ok schema =>
          match llm rc schema (decide (rc > 0)) le with
          | .error m =>
              let rest := genLoop gs llm engine n (rc + 1) (some m)
              (rest.1, ⟨rc + 1, le, some schema, .error m, none⟩ :: rest.2)
          | .ok content =>
              let sql := cleanSql content
              let r := execute_sql engine sql
              if r.1 then
                (.success sql r.2.1 (rc + 1),
                 [⟨rc + 1, le, some schema, .ok sql, some r⟩])
              else
                let rest := genLoop gs llm engine n (rc + 1) r.2.2
                (rest.1, ⟨rc + 1, le, some schema, .ok sql, some r⟩ :: rest.2) := rfl

/-- The attempts count of the result is at least the retry counter the
loop was entered with. -/
theorem genLoop_attempts_ge (gs : SchemaOracle) (llm : Completion) (engine : Engine) :
    ∀ fuel rc le, rc ≤ ((genLoop gs llm engine fuel rc le).1).attempts := by
  intro fuel
  induction fuel with
  | zero => intro rc le; simp [genLoop, PyResult.attempts]
  | succ n ih =>
      intro rc le
      cases hg : gs rc with
      | error m =>
          have := ih (rc + 1) (some m)
          simp only [genLoop, hg]
          omega
      | ok schema =>
          cases hl : llm rc schema (decide (rc > 0)) le with
          | error m =>
              have := ih (rc + 1) (some m)
              simp only [genLoop, hg, hl]
              omega
          | ok content =>
              cases hr : (execute_sql engine (cleanSql content)).1 with
              | true => simp [genLoop, hg, hl, hr, PyResult.attempts]
              | false =>
                  have := ih (rc + 1) (execute_sql engine (cleanSql content)).2.2
                  simp only [genLoop, hg, hl, hr]
                  simp only [Bool.false_eq_true, if_false]
                  omega

/-- The attempts count of the result is at most the retry counter plus the
remaining number of loop iterations. -/
theorem genLoop_attempts_le (gs : SchemaOracle) (llm : Completion) (engine : Engine) :
    ∀ fuel rc le, ((genLoop gs llm engine fuel rc le).1).attempts ≤ rc + fuel := by
  intro fuel
  induction fuel with
  | zero => intro rc le; simp [genLoop, PyResult.attempts]
  | succ n ih =>
      intro rc le
      cases hg : gs rc with
      | error m =>
          have := ih (rc + 1) (some m)
          simp only [genLoop, hg]
          omega
      | ok schema =>
          cases hl : llm rc schema (decide (rc > 0)) le with
          | error m =>
              have := ih (rc + 1) (some m)
              simp only [genLoop, hg, hl]
              omega
          | ok content =>
              cases hr : (execute_sql engine (cleanSql content)).1 with
              | true => simp [genLoop, hg, hl, hr, PyResult.attempts]
              | false =>
                  have := ih (rc + 1) (execute_sql engine (cleanSql content)).2.2
                  simp only [genLoop, hg, hl, hr]
                  simp only [Bool.false_eq_true, if_false]
                  omega

/-- When at least one iteration remains, the loop makes at least one more
attempt. -/
theorem genLoop_attempts_lb (gs : SchemaOracle) (llm : Completion) (engine : Engine)
    (fuel rc : Nat) (le : Option String) (hfuel : 1 ≤ fuel) :
    rc + 1 ≤ ((genLoop gs llm engine fuel rc le).1).attempts := by
  cases fuel with
  | zero => omega
  | succ n =>
      cases hg : gs rc with
      | error m =>
          have := genLoop_attempts_ge gs llm engine n (rc + 1) (some m)
          simp only [genLoop, hg]
          omega
      | ok schema =>
          cases hl : llm rc schema (decide (rc > 0)) le with
          | error m =>
              have := genLoop_attempts_ge gs llm engine n (rc + 1) (some m)
              simp only [genLoop, hg, hl]
              omega
          | ok content =>
              cases hr : (execute_sql engine (cleanSql content)).1 with
              | true => simp [genLoop, hg, hl, hr, PyResult.attempts]
              | false =>
                  have := genLoop_attempts_ge gs llm engine n (rc + 1)
                    (execute_sql engine (cleanSql content)).2.2
                  simp only [genLoop, hg, hl, hr]
                  simp only [Bool.false_eq_true, if_false]
                  omega

/-- C3 (counterexample): `max_retries` is a Python `int`, and the claim
quantifies over every value of `maxRetries`.  At `max_retries = -1` the
`while retry_count <= max_retries` guard is false immediately, so the loop
body never runs and the returned dictionary has `attempts = 0`, violating
`attemptsUsed >= 1`. -/
theorem attemptsUsed_bounds_cex :
    ((generate_sql gsLive llmSelect1 engNoTable (-1)).1).attempts = 0 ∧
      ¬ (1 ≤ ((generate_sql gsLive llmSelect1 engNoTable (-1)).1).attempts) := by
  decide

/-- C3 (amended): for every run with a nonnegative retry budget
`max_retries = N` — the only values the spec contemplates, and in
particular the default 3 — the returned attempts count satisfies
`1 <= attemptsUsed <= N + 1`. -/
theorem attemptsUsed_bounds (gs : SchemaOracle) (llm : Completion) (engine : Engine)
    (N : Nat) :
    1 ≤ ((generate_sql gs llm engine (N : Int)).1).attempts ∧
      ((generate_sql gs llm engine (N : Int)).1).attempts ≤ N + 1 := by
  have hfuel : ((N : Int) + 1).toNat = N + 1 := by omega
  unfold generate_sql
  rw [hfuel]
  refine ⟨?_, ?_⟩
  · have := genLoop_attempts_lb gs llm engine (N + 1) 0 none (by omega)
    omega
  · have := genLoop_attempts_le gs llm engine (N + 1) 0 none
    omega

/-- C8: `execute_sql` returns exactly one of the success shape
`(True, (columns, rows), None)` or the failure shape `(False, None, msg)`,
and in the failure case `msg` is the exception text of the engine,
verbatim. -/
theorem executeSql_exclusiveOutcome (engine : Engine) (sql : String) :
    ((execute_sql engine sql).1 = true →
        ∃ res, execute_sql engine sql = (true, some res, none)) ∧
    ((execute_sql engine sql).1 = false →
        ∃ m, engine sql = .error m ∧ execute_sql engine sql = (false, none, some m)) ∧
    (∀ m, engine sql = .error m → execute_sql engine sql = (false, none, some m)) := by
  unfold execute_sql
  cases h : engine sql <;> simp

/-- Witness for C8: the missing-table engine rejects a query and the
failure triple carries its diagnostic verbatim. -/
theorem executeSql_exclusiveOutcome_witness :
    execute_sql engNoTable "SELECT 1" = (false, none, some "no such table: nonexistent") :=
  (executeSql_exclusiveOutcome engNoTable "SELECT 1").2.2 _ rfl

/-- C10: a statement that executes without error but produces no result
set (sqlite reports `cursor.description = None` and `fetchall() = []`)
yields the success triple with empty columns and empty rows, not a
failure. -/
theorem executeSql_noResultSet (engine : Engine) (sql : String)
    (h : engine sql = .ok ⟨none, []⟩) :
    execute_sql engine sql = (true, some ([], []), none) := by
  simp [execute_sql, h]

/-- Witness for C10: an INSERT statement on the DML engine. -/
theorem executeSql_noResultSet_witness :
    execute_sql engDml "INSERT INTO purchases VALUES (8, 3, 1, NULL, 1)"
      = (true, some ([], []), none) :=
  executeSql_noResultSet engDml _ (by decide)

/-- A true success flag forces the full success shape of the
`execute_sql` triple. -/
theorem executeSql_of_true (engine : Engine) (q : String)
    (h : (execute_sql engine q).1 = true) :
    execute_sql engine q = (true, (execute_sql engine q).2.1, none) := by
  unfold execute_sql at h ⊢
  cases hq : engine q <;> simp [hq] at h ⊢

/-- When the schema fetches and the completions always succeed but the
engine rejects every statement, the loop runs out of fuel: it returns the
failure dictionary with `attempts` equal to the entry counter plus the
fuel, and the error of the dictionary is exactly the diagnostic recorded
on the last logged attempt. -/
theorem genLoop_allFail (gs : SchemaOracle) (llm : Completion) (engine : Engine)
    (hgs : ∀ i, ∃ s, gs i = .ok s)
    (hllm : ∀ i sch b le, ∃ t, llm i sch b le = .ok t)
    (heng : ∀ q, ∃ m, engine q = .error m) :
    ∀ fuel rc le, 1 ≤ fuel →
      ∃ m tr rec,
        genLoop gs llm engine fuel rc le = (.failure (some m) (rc + fuel), tr ++ [rec])
        ∧ (tr ++ [rec]).length = fuel
        ∧ rec.idx = rc + fuel
        ∧ rec.exec = some (false, none, some m) := by
  intro fuel
  induction fuel with
  | zero => intro rc le h; omega
  | succ n ih =>
      intro rc le _
      obtain ⟨sch, hg⟩ := hgs rc
      obtain ⟨t, hl⟩ := hllm rc sch (decide (rc > 0)) le
      obtain ⟨m, he⟩ := heng (cleanSql t)
      have hexec : execute_sql engine (cleanSql t) = (false, none, some m) := by
        simp [execute_sql, he]
      cases n with
      | zero =>
          refine ⟨m, [],
            ⟨rc + 1, le, some sch, .ok (cleanSql t), some (false, none, some m)⟩,
            ?_, by simp, by simp, rfl⟩
          simp [genLoop, hg, hl, hexec]
      | succ k =>
          obtain ⟨m2, tr2, rec2, hrec, hlen, hidx, hex⟩ := ih (rc + 1) (some m) (by omega)
          have harith : rc + 1 + (k + 1) = rc + (k + 1 + 1) := by omega
          refine ⟨m2,
            ⟨rc + 1, le, some sch, .ok (cleanSql t), some (false, none, some m)⟩ :: tr2,
            rec2, ?_, ?_, ?_, hex⟩
          · rw [genLoop_succ]
            simp [hg, hl, hexec, hrec, harith]
          · simp at hlen ⊢
            omega
          · omega

/-- C1: with retry budget `max_retries = N` (for any natural `N`) and
every execution failing — the generator and the schema fetch always
produce a value, the engine raises on every statement — the loop
terminates after exactly `N + 1` attempts and returns the failure
dictionary with `attempts = N + 1` whose `error` is the diagnostic
recorded by the last logged execution failure. -/
theorem allExecutionsFail_exhaustsBudget (gs : SchemaOracle) (llm : Completion)
    (engine : Engine) (N : Nat)
    (hgs : ∀ i, ∃ s, gs i = .ok s)
    (hllm : ∀ i sch b le, ∃ t, llm i sch b le = .ok t)
    (heng : ∀ q, ∃ m, engine q = .error m) :
    ∃ m tr rec,
      generate_sql gs llm engine (N : Int) = (.failure (some m) (N + 1), tr ++ [rec])
      ∧ (tr ++ [rec]).length = N + 1
      ∧ rec.idx = N + 1
      ∧ rec.exec = some (false, none, some m) := by
  have hfuel : ((N : Int) + 1).toNat = N + 1 := by omega
  have h := genLoop_allFail gs llm engine hgs hllm heng (N + 1) 0 none (by omega)
  unfold generate_sql
  rw [hfuel]
  simpa using h

/-- Witness for C1: scenario B of the spec — the completion always
proposes `SELECT * FROM nonexistent`, every execution fails with the
missing-table diagnostic, `max_retries = 3`, and the loop returns the
failure dictionary with `attempts = 4`. -/
theorem allExecutionsFail_exhaustsBudget_witness :
    ∃ m tr rec,
      generate_sql gsLive llmNonexistent engNoTable ((3 : Nat) : Int)
          = (.failure (some m) 4, tr ++ [rec])
      ∧ (tr ++ [rec]).length = 4
      ∧ rec.idx = 4
      ∧ rec.exec = some (false, none, some m) :=
  allExecutionsFail_exhaustsBudget gsLive llmNonexistent engNoTable 3
    (fun _ => ⟨setupSchema, rfl⟩)
    (fun _ _ _ _ => ⟨"SELECT * FROM nonexistent", rfl⟩)
    (fun _ => ⟨"no such table: nonexistent", rfl⟩)

/-- Any success result of the loop comes from the last logged attempt: the
trail ends with a record whose index is the returned attempts count, whose
generated SQL is exactly the returned SQL, and whose execution triple is
the successful one for that same SQL. -/
theorem genLoop_success (gs : SchemaOracle) (llm : Completion) (engine : Engine) :
    ∀ fuel rc le sql res k tr,
      genLoop gs llm engine fuel rc le = (.success sql res k, tr) →
      ∃ tr0 rec, tr = tr0 ++ [rec]
        ∧ rec.idx = k
        ∧ k = rc + tr.length
        ∧ rec.gen = .ok sql
        ∧ rec.exec = some (true, res, none)
        ∧ execute_sql engine sql = (true, res, none) := by
  intro fuel
  induction fuel with
  | zero =>
      intro rc le sql res k tr h
      simp [genLoop] at h
  | succ n ih =>
      intro rc le sql res k tr h
      rw [genLoop_succ] at h
      cases hg : gs rc with
      | error m =>
          simp only [hg, Prod.mk.injEq] at h
          obtain ⟨h1, h2⟩ := h
          subst h2
          obtain ⟨tr0, rec, htr, hidx, hk, hgen, hexl, hexq⟩ :=
            ih (rc + 1) (some m) sql res k _ (Prod.ext_iff.mpr ⟨h1, rfl⟩)
          refine ⟨⟨rc + 1, le, none, .error m, none⟩ :: tr0, rec,
            ?_, hidx, ?_, hgen, hexl, hexq⟩
          · simp [htr]
          · simp [htr] at hk ⊢
            omega
      | ok schema =>
          cases hl : llm rc schema (decide (rc > 0)) le with
          | error m =>
              simp only [hg, hl, Prod.mk.injEq] at h
              obtain ⟨h1, h2⟩ := h
              subst h2
              obtain ⟨tr0, rec, htr, hidx, hk, hgen, hexl, hexq⟩ :=
                ih (rc + 1) (some m) sql res k _ (Prod.ext_iff.mpr ⟨h1, rfl⟩)
              refine ⟨⟨rc + 1, le, some schema, .error m, none⟩ :: tr0, rec,
                ?_, hidx, ?_, hgen, hexl, hexq⟩
              · simp [htr]
              · simp [htr] at hk ⊢
                omega
          | ok content =>
              cases hr : (execute_sql engine (cleanSql content)).1 with
              | false =>
                  simp only [hg, hl, hr, Bool.false_eq_true, if_false,
                    Prod.mk.injEq] at h
                  obtain ⟨h1, h2⟩ := h
                  subst h2
                  obtain ⟨tr0, rec, htr, hidx, hk, hgen, hexl, hexq⟩ :=
                    ih (rc + 1) ((execute_sql engine (cleanSql content)).2.2)
                      sql res k _ (Prod.ext_iff.mpr ⟨h1, rfl⟩)
                  refine ⟨⟨rc + 1, le, some schema, .ok (cleanSql content),
                      some (execute_sql engine (cleanSql content))⟩ :: tr0, rec,
                    ?_, hidx, ?_, hgen, hexl, hexq⟩
                  · simp [htr]
                  · simp [htr] at hk ⊢
                    omega
              | true =>
                  simp only [hg, hl, hr, if_true, PyResult.success.injEq,
                    Prod.mk.injEq] at h
                  obtain ⟨⟨e1, e2, e3⟩, h2⟩ := h
                  have hq := executeSql_of_true engine (cleanSql content) hr
                  subst e1
                  subst e2
                  subst e3
                  subst h2
                  exact ⟨[], ⟨rc + 1, le, some schema, .ok (cleanSql content),
                      some (execute_sql engine (cleanSql content))⟩,
                    rfl, rfl, rfl, rfl, congrArg some hq, hq⟩

/-- C2: whenever `generate_sql` returns the success dictionary, the trail
ends at the succeeding attempt, the attempts count of the dictionary is
the 1-based index of that attempt (the trail length), and the returned SQL
is exactly the text whose execution succeeded on that attempt — not the
SQL of any earlier failed attempt, since the succeeding record is the last
one of the trail and carries the returned SQL itself. -/
theorem successReturnsExecutedSql (gs : SchemaOracle) (llm : Completion)
    (engine : Engine) (mr : Int) (sql : String)
    (res : Option (List String × List (List Value))) (k : Nat)
    (tr : List AttemptLog)
    (h : generate_sql gs llm engine mr = (.success sql res k, tr)) :
    ∃ tr0 rec, tr = tr0 ++ [rec]
      ∧ rec.idx = k
      ∧ k = tr.length
      ∧ rec.gen = .ok sql
      ∧ rec.exec = some (true, res, none)
      ∧ execute_sql engine sql = (true, res, none) := by
  have h2 := genLoop_success gs llm engine ((mr + 1).toNat) 0 none sql res k tr h
  simpa using h2

/-- Scenario A completion: a typo on the first attempt, corrected on the
second. -/
def llmRepair : Completion := fun i _ _ _ =>
  if i = 0 then .ok "SELECT * FROM order" else .ok "SELECT * FROM orders"

/-- Scenario A engine: rejects the typo, accepts the corrected query. -/
def engRepair : Engine := fun sql =>
  if sql = "SELECT * FROM orders" then .ok ⟨some ["user_id"], []⟩
  else .error "no such table: order"

/-- Witness for C2: the scenario A run succeeds on attempt 2 and returns
the corrected SQL of that attempt. -/
theorem successReturnsExecutedSql_witness :
    ∃ tr0 rec, (generate_sql gsLive llmRepair engRepair 3).2 = tr0 ++ [rec]
      ∧ rec.idx = 2
      ∧ 2 = (generate_sql gsLive llmRepair engRepair 3).2.length
      ∧ rec.gen = .ok "SELECT * FROM orders"
      ∧ rec.exec = some (true, some (["user_id"], []), none)
      ∧ execute_sql engRepair "SELECT * FROM orders"
          = (true, some (["user_id"], []), none) :=
  successReturnsExecutedSql gsLive llmRepair engRepair 3 _ _ _ _ (by decide)

/-- The error context an attempt leaves behind for the next attempt: the
exception message when the try-block raised (`last_error = str(e)`),
otherwise the error component of the execution triple
(`last_error = error`). -/
def nextError (rec : AttemptLog) : Option String :=
  match rec.gen with
  | .error m => some m
  | .ok _ => rec.exec.bind fun r => r.2.2

/-- Well-formedness of a trail relative to the loop state it was produced
from: indices count up from the entry counter, and every record receives
as `priorError` exactly the error context of the record before it. -/
def chained : Nat → Option String → List AttemptLog → Prop
  | _, _, [] => True
  | rc, le, rec :: rest =>
      rec.idx = rc + 1 ∧ rec.priorError = le ∧ chained (rc + 1) (nextError rec) rest

/-- Every trail the loop produces is chained. -/
theorem genLoop_chained (gs : SchemaOracle) (llm : Completion) (engine : Engine) :
    ∀ fuel rc le, chained rc le (genLoop gs llm engine fuel rc le).2 := by
  intro fuel
  induction fuel with
  | zero => intro rc le; simp [genLoop, chained]
  | succ n ih =>
      intro rc le
      rw [genLoop_succ]
      cases hg : gs rc with
      | error m =>
          simp only [hg]
          exact ⟨rfl, rfl, ih (rc + 1) (some m)⟩
      | ok schema =>
          cases hl : llm rc schema (decide (rc > 0)) le with
          | error m =>
              simp only [hg, hl]
              exact ⟨rfl, rfl, ih (rc + 1) (some m)⟩
          | ok content =>
              cases hr : (execute_sql engine (cleanSql content)).1 with
              | true =>
                  simp only [hg, hl, hr, if_true]
                  exact ⟨rfl, rfl, trivial⟩
              | false =>
                  simp only [hg, hl, hr, Bool.false_eq_true, if_false]
                  exact ⟨rfl, rfl,
                    ih (rc + 1) ((execute_sql engine (cleanSql content)).2.2)⟩

/-- In a chained trail, each record passes its error context to the next
record, and indices of adjacent records differ by one. -/
theorem chained_adjacent :
    ∀ (tr : List AttemptLog) (rc : Nat) (le : Option String), chained rc le tr →
      ∀ j rec rec2, tr[j]? = some rec → tr[j + 1]? = some rec2 →
        rec2.priorError = nextError rec ∧ rec2.idx = rec.idx + 1 := by
  intro tr
  induction tr with
  | nil => intro rc le hc j rec rec2 h1 h2; simp at h1
  | cons a l ih =>
      intro rc le hc j rec rec2 h1 h2
      obtain ⟨hidx, hprior, hrest⟩ := hc
      cases j with
      | zero =>
          simp only [List.getElem?_cons_zero, Option.some.injEq] at h1
          subst h1
          cases l with
          | nil => simp at h2
          | cons b l2 =>
              obtain ⟨hidx2, hprior2, _⟩ := hrest
              simp only [List.getElem?_cons_succ, List.getElem?_cons_zero,
                Option.some.injEq] at h2
              subst h2
              exact ⟨hprior2, by omega⟩
      | succ j2 =>
          simp only [List.getElem?_cons_succ] at h1 h2
          exact ih (rc + 1) (nextError a) hrest j2 rec rec2 h1 h2

/-- A record whose generator outcome is an exception was logged without
any execution: the try-block jumped to the except-branch before
`execute_sql` ran. -/
theorem genLoop_genError_exec (gs : SchemaOracle) (llm : Completion) (engine : Engine) :
    ∀ fuel rc le rec, rec ∈ (genLoop gs llm engine fuel rc le).2 →
      ∀ m, rec.gen = .error m → rec.exec = none := by
  intro fuel
  induction fuel with
  | zero => intro rc le rec hmem; simp [genLoop] at hmem
  | succ n ih =>
      intro rc le rec hmem m hgen
      rw [genLoop_succ] at hmem
      cases hg : gs rc with
      | error me =>
          simp only [hg] at hmem
          rcases List.mem_cons.mp hmem with h | h
          · subst h; rfl
          · exact ih (rc + 1) (some me) rec h m hgen
      | ok schema =>
          cases hl : llm rc schema (decide (rc > 0)) le with
          | error me =>
              simp only [hg, hl] at hmem
              rcases List.mem_cons.mp hmem with h | h
              · subst h; rfl
              · exact ih (rc + 1) (some me) rec h m hgen
          | ok content =>
              cases hr : (execute_sql engine (cleanSql content)).1 with
              | true =>
                  simp only [hg, hl, hr, if_true] at hmem
                  rcases List.mem_cons.mp hmem with h | h
                  · subst h; simp at hgen
                  · simp at h
              | false =>
                  simp only [hg, hl, hr, Bool.false_eq_true, if_false] at hmem
                  rcases List.mem_cons.mp hmem with h | h
                  · subst h; simp at hgen
                  · exact ih (rc + 1) ((execute_sql engine (cleanSql content)).2.2)
                      rec h m hgen

/-- C9: when the generator itself raises on an attempt (the record carries
a generator exception, not an execution failure — indeed no execution
happened on it), the loop does not crash: the trail continues, the next
attempt has index one greater (exactly one retry consumed) and receives
the exception message as its `priorError`.  No exception escapes
`generate_sql`, which always returns a `PyResult`. -/
theorem generatorException_consumesRetry (gs : SchemaOracle) (llm : Completion)
    (engine : Engine) (mr : Int) (j : Nat) (rec rec2 : AttemptLog) (m : String)
    (h1 : (generate_sql gs llm engine mr).2[j]? = some rec)
    (h2 : (generate_sql gs llm engine mr).2[j + 1]? = some rec2)
    (hgen : rec.gen = .error m) :
    rec.exec = none ∧ rec2.priorError = some m ∧ rec2.idx = rec.idx + 1 := by
  have hch := genLoop_chained gs llm engine ((mr + 1).toNat) 0 none
  have hadj := chained_adjacent _ 0 none hch j rec rec2 h1 h2
  have hexec := genLoop_genError_exec gs llm engine ((mr + 1).toNat) 0 none rec
    (List.getElem?_mem h1) m hgen
  refine ⟨hexec, ?_, hadj.2⟩
  rw [hadj.1]
  simp [nextError, hgen]

/-- A completion that raises on the first attempt and proposes a valid
query afterwards. -/
def llmBoom : Completion := fun i _ _ _ =>
  if i = 0 then .error "boom" else .ok "SELECT 1"

/-- An engine accepting exactly `SELECT 1`. -/
def engSelect1 : Engine := fun sql =>
  if sql = "SELECT 1" then .ok ⟨some ["1"], [[.int 1]]⟩
  else .error "syntax error"

/-- Witness for C9: on the run where the completion raises `boom` on
attempt 1, attempt 2 starts with `priorError = boom` and the raising
record shows no execution. -/
theorem generatorException_consumesRetry_witness :
    (⟨1, none, some setupSchema, Except.error "boom", none⟩ : AttemptLog).exec = none
    ∧ (⟨2, some "boom", some setupSchema, .ok "SELECT 1",
        some (true, some (["1"], [[.int 1]]), none)⟩ : AttemptLog).priorError = some "boom"
    ∧ (⟨2, some "boom", some setupSchema, .ok "SELECT 1",
        some (true, some (["1"], [[.int 1]]), none)⟩ : AttemptLog).idx
      = (⟨1, none, some setupSchema, Except.error "boom", none⟩ : AttemptLog).idx + 1 :=
  generatorException_consumesRetry gsLive llmBoom engSelect1 3 0 _ _ "boom"
    (by decide) (by decide) rfl

/-- The exception text sqlite3 raises on any use of a closed connection. -/
def closedMsg : String := "Cannot operate on a closed database."

/-- The schema provider of a disconnected store: every `get_schema` call
raises. -/
def gsClosed : SchemaOracle := fun _ => .error closedMsg

/-- The engine of a disconnected store: every `cursor.execute` raises. -/
def engClosed : Engine := fun _ => .error closedMsg

/-- When every `get_schema` call raises, every attempt lands in the
except-branch: the loop still consumes its whole budget and ends in the
ordinary failure dictionary carrying the exception text. -/
theorem genLoop_gsRaise (gs : SchemaOracle) (llm : Completion) (engine : Engine)
    (m0 : String) (hgs : ∀ i, gs i = .error m0) :
    ∀ fuel rc le, 1 ≤ fuel →
      (genLoop gs llm engine fuel rc le).1 = .failure (some m0) (rc + fuel)
      ∧ (genLoop gs llm engine fuel rc le).2.length = fuel
      ∧ ∀ rec ∈ (genLoop gs llm engine fuel rc le).2,
          rec.gen = .error m0 ∧ rec.exec = none := by
  intro fuel
  induction fuel with
  | zero => intro rc le h; omega
  | succ n ih =>
      intro rc le _
      cases n with
      | zero =>
          rw [genLoop_succ]
          simp only [hgs rc]
          refine ⟨by simp [genLoop], by simp [genLoop], ?_⟩
          intro rec hmem
          simp [genLoop] at hmem
          subst hmem
          exact ⟨rfl, rfl⟩
      | succ k =>
          obtain ⟨ih1, ih2, ih3⟩ := ih (rc + 1) (some m0) (by omega)
          have harith : rc + 1 + (k + 1) = rc + (k + 1 + 1) := by omega
          rw [genLoop_succ]
          simp only [hgs rc]
          refine ⟨?_, ?_, ?_⟩
          · rw [show ((genLoop gs llm engine (k + 1) (rc + 1) (some m0)).1,
                (⟨rc + 1, le, none, .error m0, none⟩ : AttemptLog) ::
                  (genLoop gs llm engine (k + 1) (rc + 1) (some m0)).2).1
              = (genLoop gs llm engine (k + 1) (rc + 1) (some m0)).1 from rfl]
            rw [ih1, harith]
          · simp only [List.length_cons]
            omega
          · intro rec hmem
            simp only [List.mem_cons] at hmem
            rcases hmem with h | h
            · subst h; exact ⟨rfl, rfl⟩
            · exact ih3 rec h

/-- C4 (counterexample): with the backing store closed before any attempt
(`get_schema` and `cursor.execute` both raise the sqlite closed-database
exception), the loop does not abort with a distinct resource fault and
`attemptsUsed = 0`: `execute_sql` and the try/except of the loop absorb
the exception like any correctable error, the whole budget is consumed,
and the run ends in the ordinary failure dictionary with `attempts = 4`. -/
theorem storeUnavailable_cex :
    (generate_sql gsClosed llmSelect1 engClosed 3).1 = .failure (some closedMsg) 4
    ∧ ((generate_sql gsClosed llmSelect1 engClosed 3).1).attempts ≠ 0 := by
  decide

/-- C4 (amended): an unavailable store is not a distinct outcome — its
exceptions are recovered like any generation failure.  When every schema
fetch raises the closed-database message, the loop records a generator
exception on every one of its `N + 1` attempts (none of them executes
anything), consumes the full budget, and returns the ordinary failure
dictionary carrying that message; nothing propagates to the caller. -/
theorem storeUnavailable_absorbed (gs : SchemaOracle) (llm : Completion)
    (engine : Engine) (m0 : String) (N : Nat) (hgs : ∀ i, gs i = .error m0) :
    (generate_sql gs llm engine (N : Int)).1 = .failure (some m0) (N + 1)
    ∧ (generate_sql gs llm engine (N : Int)).2.length = N + 1
    ∧ ∀ rec ∈ (generate_sql gs llm engine (N : Int)).2,
        rec.gen = .error m0 ∧ rec.exec = none := by
  have hfuel : ((N : Int) + 1).toNat = N + 1 := by omega
  have h := genLoop_gsRaise gs llm engine m0 hgs (N + 1) 0 none (by omega)
  unfold generate_sql
  rw [hfuel]
  simpa using h

/-- Witness for the amended C4: the closed-store run with the default
budget. -/
theorem storeUnavailable_absorbed_witness :
    (generate_sql gsClosed llmSelect1 engClosed ((3 : Nat) : Int)).1
        = .failure (some closedMsg) 4
    ∧ (generate_sql gsClosed llmSelect1 engClosed ((3 : Nat) : Int)).2.length = 4
    ∧ ∀ rec ∈ (generate_sql gsClosed llmSelect1 engClosed ((3 : Nat) : Int)).2,
        rec.gen = .error closedMsg ∧ rec.exec = none :=
  storeUnavailable_absorbed gsClosed llmSelect1 engClosed closedMsg 3 (fun _ => rfl)

/-- A completion that returns empty text on every attempt. -/
def llmEmpty : Completion := fun _ _ _ _ => .ok ""

/-- An engine behaving like sqlite3 on the empty statement: executing the
empty string succeeds with no result set (`cursor.description` is `None`,
`fetchall()` returns `[]`). -/
def engEmptyOk : Engine := fun sql =>
  if sql = "" then .ok ⟨none, []⟩ else .error "no such table: nonexistent"

/-- C5 (counterexample): when the generator returns empty text on attempt
1, the loop does not treat it as an execution failure with a synthetic
`empty query` message consuming a retry: the empty string is executed like
any SQL, and since sqlite3 executes an empty statement successfully, the
run returns a success dictionary at attempt 1 with the empty SQL — no
retry consumed, no synthetic message anywhere. -/
theorem emptyQuery_cex :
    generate_sql gsLive llmEmpty engEmptyOk 3
      = (.success "" (some ([], [])) 1,
         [⟨1, none, some setupSchema, .ok "", some (true, some ([], []), none)⟩]) := by
  decide

/-- C5 (amended): empty generator text receives no special treatment — it
is handed to `execute_sql` verbatim.  Attempt 1 is logged with the empty
SQL and the `execute_sql` triple on the empty string as its outcome; if
the engine succeeds on the empty string (as sqlite3 does) the run returns
success at attempt 1, and in an engine-failure case the error context is
the engine diagnostic of the triple, never a synthetic message. -/
theorem emptyQuery_passedVerbatim (gs : SchemaOracle) (llm : Completion)
    (engine : Engine) (sch : Schema) (c : String) (N : Nat)
    (h0 : gs 0 = .ok sch) (h1 : llm 0 sch false none = .ok c)
    (h2 : cleanSql c = "") :
    (generate_sql gs llm engine (N : Int)).2.head?
        = some ⟨1, none, some sch, .ok "", some (execute_sql engine "")⟩
    ∧ ((execute_sql engine "").1 = true →
        (generate_sql gs llm engine (N : Int)).1
          = .success "" (execute_sql engine "").2.1 1) := by
  have hfuel : ((N : Int) + 1).toNat = N + 1 := by omega
  have hd : decide ((0 : Nat) > 0) = false := rfl
  unfold generate_sql
  rw [hfuel, genLoop_succ, hd]
  simp only [h0, h1, h2]
  constructor
  · cases hr : (execute_sql engine "").1 with
    | true => simp [hr]
    | false => simp [hr]
  · intro htrue
    simp [htrue]

/-- Witness for the amended C5: the sqlite-like engine executes the empty
text and the loop returns success at attempt 1 with the empty SQL. -/
theorem emptyQuery_passedVerbatim_witness :
    (generate_sql gsLive llmEmpty engEmptyOk ((3 : Nat) : Int)).1
      = .success "" (execute_sql engEmptyOk "").2.1 1 :=
  (emptyQuery_passedVerbatim gsLive llmEmpty engEmptyOk setupSchema "" 3
    rfl rfl (by decide)).2 (by decide)

/-- A second, different schema value for the changing-provider fixture. -/
def schemaV1 : Schema := [⟨"products", ["product_id"], ["INTEGER"]⟩]

/-- A schema provider whose value changes between the first and the second
fetch, as a live database may after a DDL statement. -/
def gsChange : SchemaOracle := fun i =>
  if i = 0 then .ok setupSchema else .ok schemaV1

/-- C6 (counterexample): with a schema provider whose value changes
between calls and an engine that always fails, the `maxRetries = 1` run
logs two attempts carrying different `get_schema` results: the generator
call of attempt 2 does not receive the snapshot of attempt 1, because
`_generate_with_openai` re-fetches the schema on every attempt. -/
theorem schemaSnapshot_cex :
    ((generate_sql gsChange llmNonexistent engNoTable 1).2.map AttemptLog.schema)
      = [some setupSchema, some schemaV1]
    ∧ setupSchema ≠ schemaV1 := by
  decide

/-- The value delivered by a schema fetch, `none` when the fetch raised. -/
def okValue : Except String Schema → Option Schema
  | .ok s => some s
  | .error _ => none

/-- Every logged attempt carries the result of its own schema fetch: the
`i`-th attempt (1-based) holds the value of fetch `i - 1` (0-based). -/
theorem genLoop_schema_refetch (gs : SchemaOracle) (llm : Completion) (engine : Engine) :
    ∀ fuel rc le rec, rec ∈ (genLoop gs llm engine fuel rc le).2 →
      rec.schema = okValue (gs (rec.idx - 1)) := by
  intro fuel
  induction fuel with
  | zero => intro rc le rec hmem; simp [genLoop] at hmem
  | succ n ih =>
      intro rc le rec hmem
      rw [genLoop_succ] at hmem
      cases hg : gs rc with
      | error m =>
          simp only [hg] at hmem
          rcases List.mem_cons.mp hmem with h | h
          · subst h
            simp [okValue, hg]
          · exact ih (rc + 1) (some m) rec h
      | ok schema =>
          cases hl : llm rc schema (decide (rc > 0)) le with
          | error m =>
              simp only [hg, hl] at hmem
              rcases List.mem_cons.mp hmem with h | h
              · subst h
                simp [okValue, hg]
              · exact ih (rc + 1) (some m) rec h
          | ok content =>
              cases hr : (execute_sql engine (cleanSql content)).1 with
              | true =>
                  simp only [hg, hl, hr, if_true] at hmem
                  rcases List.mem_cons.mp hmem with h | h
                  · subst h
                    simp [okValue, hg]
                  · simp at h
              | false =>
                  simp only [hg, hl, hr, Bool.false_eq_true, if_false] at hmem
                  rcases List.mem_cons.mp hmem with h | h
                  · subst h
                    simp [okValue, hg]
                  · exact ih (rc + 1)
                      ((execute_sql engine (cleanSql content)).2.2) rec h

/-- C6 (amended): the schema is not snapshotted once per question — it is
re-fetched by `get_schema` at the start of every generation attempt, so
the generator call of attempt `i` receives the value of the `i`-th fetch
of the run, which may differ between attempts when the underlying schema
changes. -/
theorem schemaRefetchedPerAttempt (gs : SchemaOracle) (llm : Completion)
    (engine : Engine) (mr : Int) (rec : AttemptLog)
    (hmem : rec ∈ (generate_sql gs llm engine mr).2) :
    rec.schema = okValue (gs (rec.idx - 1)) :=
  genLoop_schema_refetch gs llm engine ((mr + 1).toNat) 0 none rec hmem

/-- Witness for the amended C6: attempt 2 of the changing-provider run
carries the value of the second fetch. -/
theorem schemaRefetchedPerAttempt_witness :
    (⟨2, some "no such table: nonexistent", some schemaV1,
        .ok "SELECT * FROM nonexistent",
        some (false, none, some "no such table: nonexistent")⟩ : AttemptLog).schema
      = okValue (gsChange 1) :=
  schemaRefetchedPerAttempt gsChange llmNonexistent engNoTable 1 _ (by decide)

/-- The backtick delimiter character (code point 96). -/
def fenceChar : Char := Char.ofNat 96

/-- A list starting with a non-backtick character is not fence-prefixed. -/
theorem isPrefixOf_fence_cons (c : Char) (cs : List Char) (hc : c ≠ fenceChar) :
    ("```".data).isPrefixOf (c :: cs) = false := by
  have hf : "```".data = fenceChar :: "``".data := by decide
  rw [hf]
  simp [List.isPrefixOf, beq_false_of_ne (Ne.symm hc)]

/-- Splitting at the first fence keeps a fence-free prefix whole. -/
theorem takeUntilFence_append (xs : List Char) (hx : ∀ c ∈ xs, c ≠ fenceChar) :
    takeUntilFence (xs ++ "```".data) = xs := by
  induction xs with
  | nil => decide
  | cons c cs ih =>
      have hc : c ≠ fenceChar := hx c (by simp)
      rw [List.cons_append]
      simp only [takeUntilFence, isPrefixOf_fence_cons c _ hc, Bool.false_eq_true,
        if_false]
      rw [ih fun d hd => hx d (by simp [hd])]

/-- Python strip leaves a list alone when its first character is not
whitespace. -/
theorem dropWhile_ws_eq_self (l : List Char)
    (hh : ∀ c ∈ l.head?, isPyWs c = false) :
    l.dropWhile isPyWs = l := by
  cases l with
  | nil => rfl
  | cons c cs => simp [List.dropWhile, hh c (by simp)]

/-- Python strip leaves a list alone when neither end is whitespace. -/
theorem pyStripList_eq_self (l : List Char)
    (hh : ∀ c ∈ l.head?, isPyWs c = false)
    (hl : ∀ c ∈ l.getLast?, isPyWs c = false) :
    pyStripList l = l := by
  unfold pyStripList
  rw [dropWhile_ws_eq_self l hh]
  have h2 : l.reverse.dropWhile isPyWs = l.reverse := by
    apply dropWhile_ws_eq_self
    intro c hc
    rw [List.head?_reverse] at hc
    exact hl c hc
  rw [h2, List.reverse_reverse]

/-- Stripping a fenced block wrapped around a plain body returns exactly
the body.  Plain means: nonempty, free of backticks, and with
non-whitespace first and last characters. -/
theorem cleanSql_wrapped (body : List Char) (hne : body ≠ [])
    (hfence : ∀ c ∈ body, c ≠ fenceChar)
    (hh : ∀ c ∈ body.head?, isPyWs c = false)
    (hl : ∀ c ∈ body.getLast?, isPyWs c = false) :
    cleanSql ⟨"```sql
".data ++ body ++ "
```".data⟩ = ⟨body⟩ := by
  obtain ⟨b0, tb, rfl⟩ : ∃ b0 tb, body = b0 :: tb := by
    cases body with
    | nil => exact absurd rfl hne
    | cons b0 tb => exact ⟨b0, tb, rfl⟩
  have hA : pyStripList (("```sql\n".data ++ (b0 :: tb)) ++ "\n```".data)
      = ("```sql\n".data ++ (b0 :: tb)) ++ "\n```".data := by
    apply pyStripList_eq_self
    · have e1 : "```sql\n".data = fenceChar :: "``sql\n".data := by decide
      rw [e1]
      intro c hc
      simp at hc
      subst hc
      decide
    · intro c hc
      rw [List.getLast?_append_of_ne_nil _ (show "\n```".data ≠ [] by decide)] at hc
      rw [show ("\n```".data).getLast? = some fenceChar from by decide] at hc
      simp at hc
      subst hc
      decide
  have e3 : ("```sql\n".data ++ (b0 :: tb)) ++ "\n```".data
      = "```sql".data ++ (Char.ofNat 10 :: ((b0 :: tb) ++ "\n```".data)) := by
    have e0 : "```sql\n".data = "```sql".data ++ [Char.ofNat 10] := by decide
    simp [e0, List.append_assoc]
  have hpre : ("```sql".data).isPrefixOf
      ("```sql".data ++ (Char.ofNat 10 :: ((b0 :: tb) ++ "\n```".data))) = true := by
    rw [ List.isPrefixOf_iff_prefix]
    exact List.prefix_append _ _
  have hsam1 : stripAfterMarker "```sql".data
      ("```sql".data ++ (Char.ofNat 10 :: ((b0 :: tb) ++ "\n```".data)))
      = pyStripList (takeUntilFence (Char.ofNat 10 :: ((b0 :: tb) ++ "\n```".data))) := by
    simp [stripAfterMarker, hpre, List.drop_left]
  have e4 : Char.ofNat 10 :: ((b0 :: tb) ++ "\n```".data)
      = (Char.ofNat 10 :: ((b0 :: tb) ++ [Char.ofNat 10])) ++ "```".data := by
    have e0 : "\n```".data = Char.ofNat 10 :: "```".data := by decide
    simp [e0, List.append_assoc]
  have hxs : ∀ c ∈ Char.ofNat 10 :: ((b0 :: tb) ++ [Char.ofNat 10]), c ≠ fenceChar := by
    intro c hc
    simp at hc
    rcases hc with rfl | rfl | hc | rfl
    · decide
    · exact hfence c (by simp)
    · exact hfence c (by simp [hc])
    · decide
  have hB : pyStripList (Char.ofNat 10 :: ((b0 :: tb) ++ [Char.ofNat 10])) = b0 :: tb := by
    have hws : isPyWs (Char.ofNat 10) = true := by decide
    have s1 : List.dropWhile isPyWs (Char.ofNat 10 :: ((b0 :: tb) ++ [Char.ofNat 10]))
        = List.dropWhile isPyWs (b0 :: (tb ++ [Char.ofNat 10])) := by
      simp [List.dropWhile, hws]
    have s2 : List.dropWhile isPyWs (b0 :: (tb ++ [Char.ofNat 10]))
        = b0 :: (tb ++ [Char.ofNat 10]) := by
      apply dropWhile_ws_eq_self
      intro c hc
      simp at hc
      subst hc
      exact hh b0 (by simp)
    have s3 : (b0 :: (tb ++ [Char.ofNat 10])).reverse
        = Char.ofNat 10 :: (b0 :: tb).reverse := by
      rw [show b0 :: (tb ++ [Char.ofNat 10]) = (b0 :: tb) ++ [Char.ofNat 10] from rfl,
        List.reverse_append]
      simp
    have s4 : List.dropWhile isPyWs (Char.ofNat 10 :: (b0 :: tb).reverse)
        = List.dropWhile isPyWs ((b0 :: tb).reverse) := by
      simp [List.dropWhile, hws]
    have s5 : List.dropWhile isPyWs ((b0 :: tb).reverse) = (b0 :: tb).reverse := by
      apply dropWhile_ws_eq_self
      intro c hc
      rw [List.head?_reverse] at hc
      exact hl c hc
    unfold pyStripList
    rw [s1, s2, s3, s4, s5, List.reverse_reverse]
  have hC : stripAfterMarker "```".data (b0 :: tb) = b0 :: tb := by
    unfold stripAfterMarker
    rw [isPrefixOf_fence_cons b0 tb (hfence b0 (by simp))]
    simp
  show (⟨stripAfterMarker "```".data (stripAfterMarker "```sql".data
      (pyStripList (("```sql\n".data ++ (b0 :: tb)) ++ "\n```".data)))⟩ : String)
    = ⟨b0 :: tb⟩
  rw [hA, e3, hsam1, e4, takeUntilFence_append _ hxs, hB, hC]

/-- C7: the adapter strips the fenced code-block opener and closer wrapped
around a plain SQL body (nonempty, backtick-free, no whitespace at either
end), returning the body with no backtick delimiter characters left; in
particular the raw response of three backticks, `sql`, a newline,
`SELECT 1;`, a newline and three closing backticks yields exactly
`SELECT 1;`, which contains no delimiter character. -/
theorem fencedBlockStripping :
    (∀ body : List Char, body ≠ [] →
        (∀ c ∈ body, c ≠ fenceChar) →
        (∀ c ∈ body.head?, isPyWs c = false) →
        (∀ c ∈ body.getLast?, isPyWs c = false) →
        cleanSql ⟨"```sql\n".data ++ body ++ "\n```".data⟩ = ⟨body⟩)
    ∧ cleanSql "```sql\nSELECT 1;\n```" = "SELECT 1;"
    ∧ (("SELECT 1;".data).all fun c => c != fenceChar) = true := by
  refine ⟨fun body h1 h2 h3 h4 => cleanSql_wrapped body h1 h2 h3 h4, ?_, ?_⟩ <;> decide

/-- Witness for C7: the general clause applied to the body `SELECT 2`. -/
theorem fencedBlockStripping_witness :
    cleanSql ⟨"```sql\n".data ++ "SELECT 2".data ++ "\n```".data⟩ = ⟨"SELECT 2".data⟩ :=
  fencedBlockStripping.1 "SELECT 2".data (by decide) (by decide) (by decide) (by decide)

end Nl2Sql
